import Mathlib

/-!
Shallow embedding of the Pomodoro clock controller in `src/script.js`.

The controller's React state hooks become fields of `AppState`:
`displayTime`, `breakLength`, `sessionLength`, `breakOn`, plus the audio
element's observable state and a counter of notifier (`playAudio`) calls.
The `timerOn` hook holds either `false` or the live interval handle; we model
it as `activeInterval : Option TickClosure`, where `TickClosure` records the
mutable `breakOnVar` local and the `breakLength` / `sessionLength` values
captured by the interval callback's closure at `startTimer` time (the stale
closure the spec's design notes describe).  Ticks, user actions and resets are
serialized in the browser event loop, so each becomes a pure state transition.
-/

/-- The interval callback created by `startTimer`: the `breakOnVar` local
variable it mutates, and the `breakLength` / `sessionLength` values its
closure captured from the render in which the interval was created. -/
structure TickClosure where
  breakOnVar : Bool
  breakLength : Int
  sessionLength : Int
deriving DecidableEq

/-- The controller state: the React state hooks of `App`, the audio element's
observable state, and a count of notifier calls. -/
structure AppState where
  displayTime : Int
  breakLength : Int
  sessionLength : Int
  breakOn : Bool
  activeInterval : Option TickClosure
  audioPaused : Bool
  audioTime : Int
  notifierCalls : Nat
deriving DecidableEq

/-- Initial hook values: `useState(25*60)`, `useState(5)`, `useState(25)`,
`useState(false)`, `useState(false)`; no interval yet, audio idle. -/
def initialState : AppState :=
  { displayTime := 25 * 60
    breakLength := 5
    sessionLength := 25
    breakOn := false
    activeInterval := none
    audioPaused := true
    audioTime := 0
    notifierCalls := 0 }

/-- `playAudio`: `audioRef.current.currentTime = 0; audioRef.current.play()`,
counted as one notifier call. -/
def playAudio (s : AppState) : AppState :=
  { s with
    audioTime := 0
    audioPaused := false
    notifierCalls := s.notifierCalls + 1 }

/-- `handleIncrementDecrement(type, amount)`: guard on the pre-adjustment
value (`<= 1 || >= 60` rejects), then `setBreakLength(prev + amount)` or
`setSessionLength(prev + amount)` with
`setDisplayTime((sessionLength + amount) * 60)` for the session case. -/
def handleIncrementDecrement (s : AppState) (type : String) (amount : Int) :
    AppState :=
  if type = "break" then
    if s.breakLength ≤ 1 ∨ s.breakLength ≥ 60 then s
    else { s with breakLength := s.breakLength + amount }
  else if type = "session" then
    if s.sessionLength ≤ 1 ∨ s.sessionLength ≥ 60 then s
    else
      { s with
        sessionLength := s.sessionLength + amount
        displayTime := (s.sessionLength + amount) * 60 }
  else s

/-- One firing of the `setInterval` callback installed by `startTimer`.
With no live interval nothing fires.  Otherwise the callback runs
`setDisplayTime(prev => ...)`: at `prev === 0` it plays the audio, flips
`breakOnVar` and `breakOn`, and returns the captured length of the newly
active phase times 60; otherwise it returns `prev - 1`. -/
def tick (s : AppState) : AppState :=
  match s.activeInterval with
  | none => s
  | some c =>
    if s.displayTime = 0 ∧ c.breakOnVar = false then
      { playAudio s with
        breakOn := true
        activeInterval := some { c with breakOnVar := true }
        displayTime := c.breakLength * 60 }
    else if s.displayTime = 0 ∧ c.breakOnVar = true then
      { playAudio s with
        breakOn := false
        activeInterval := some { c with breakOnVar := false }
        displayTime := c.sessionLength * 60 }
    else { s with displayTime := s.displayTime - 1 }

/-- `startTimer`: if `timerOn` is truthy, `clearInterval(timerOn)` and
`setTimerOn(false)`; otherwise install the interval, whose closure captures
`breakOnVar = breakOn` and the current `breakLength` / `sessionLength`. -/
def startTimer (s : AppState) : AppState :=
  match s.activeInterval with
  | some _ => { s with activeInterval := none }
  | none =>
    { s with
      activeInterval :=
        some
          { breakOnVar := s.breakOn
            breakLength := s.breakLength
            sessionLength := s.sessionLength } }

/-- `reset`: defaults restored, interval cleared, audio paused and rewound. -/
def reset (s : AppState) : AppState :=
  { displayTime := 25 * 60
    breakLength := 5
    sessionLength := 25
    breakOn := false
    activeInterval := none
    audioPaused := true
    audioTime := 0
    notifierCalls := s.notifierCalls }

/-- `n` consecutive interval firings. -/
def applyTicks (n : Nat) (s : AppState) : AppState :=
  tick^[n] s

/-- JavaScript `String.prototype.padStart(n, "0")` specialised to a
one-character pad string. -/
def padStart (s : String) (n : Nat) (c : Char) : String :=
  if n ≤ s.length then s
  else String.mk (List.replicate (n - s.length) c) ++ s

/-- `timeFormat(time)`: `Math.floor(time/60)` and `time % 60`, each rendered
in decimal, padded to width 2 with "0", joined by ":". -/
def timeFormat (time : Nat) : String :=
  padStart (Nat.repr (time / 60)) 2 '0' ++ ":" ++
    padStart (Nat.repr (time % 60)) 2 '0'

/-- The user-visible operations of the controller. -/
inductive Op where
  | adjust (type : String) (amount : Int)
  | startStop
  | tickOp
  | resetOp
deriving DecidableEq

/-- Apply one operation to the state. -/
def applyOp (s : AppState) : Op → AppState
  | .adjust t a => handleIncrementDecrement s t a
  | .startStop => startTimer s
  | .tickOp => tick s
  | .resetOp => reset s

/-- Apply a sequence of operations, left to right. -/
def applyOps (s : AppState) (l : List Op) : AppState :=
  l.foldl applyOp s

/-- The UI only ever calls `handleIncrementDecrement` with `amount` 1 or -1;
the other operations take no argument. -/
def validOp : Op → Prop
  | .adjust _ a => a = 1 ∨ a = -1
  | _ => True

/-- States reachable from the initial state by the UI's operations. -/
inductive Reachable : AppState → Prop where
  | init : Reachable initialState
  | step (o : Op) (ho : validOp o) {s : AppState} (hs : Reachable s) :
      Reachable (applyOp s o)

/-- Bounds the reachable states maintain for a live closure's captured
lengths. -/
def ClosureBounds (c : TickClosure) : Prop :=
  1 ≤ c.breakLength ∧ c.breakLength ≤ 60 ∧
    1 ≤ c.sessionLength ∧ c.sessionLength ≤ 60

/-- Inductive invariant of the reachable states. -/
def ReachInv (s : AppState) : Prop :=
  0 ≤ s.displayTime ∧
    1 ≤ s.breakLength ∧ s.breakLength ≤ 60 ∧
    1 ≤ s.sessionLength ∧ s.sessionLength ≤ 60 ∧
    ∀ c, s.activeInterval = some c → ClosureBounds c

/-- Spec-side rendering of one field of the clock, following the spec's words:
the number in decimal, zero-padded to width 2. -/
def specZeroPad (k : Nat) : String :=
  if k < 10 then "0" ++ Nat.repr k else Nat.repr k

/-- Spec-side formatting, following the spec's words: minutes =
floor(seconds/60), secs = seconds mod 60, each zero-padded to width 2 and
joined by ":". -/
def specFormat (seconds : Nat) : String :=
  specZeroPad (seconds / 60) ++ ":" ++ specZeroPad (seconds % 60)

/-! ### Basic lemmas about single operations -/

theorem tick_of_none (s : AppState) (h : s.activeInterval = none) :
    tick s = s := by
  unfold tick
  rw [h]

theorem tick_of_pos (s : AppState) (c : TickClosure)
    (hc : s.activeInterval = some c) (h : s.displayTime ≠ 0) :
    tick s = { s with displayTime := s.displayTime - 1 } := by
  unfold tick
  rw [hc]
  simp [h]

theorem tick_of_zero (s : AppState) (c : TickClosure)
    (hc : s.activeInterval = some c) (h : s.displayTime = 0) :
    tick s =
      { s with
        displayTime := (if c.breakOnVar then c.sessionLength else c.breakLength) * 60
        breakOn := !c.breakOnVar
        activeInterval := some { c with breakOnVar := !c.breakOnVar }
        audioPaused := false
        audioTime := 0
        notifierCalls := s.notifierCalls + 1 } := by
  unfold tick
  rw [hc]
  cases hb : c.breakOnVar <;> simp [h, hb, playAudio]

theorem applyTicks_of_pos (k : Nat) (s : AppState) (c : TickClosure)
    (hc : s.activeInterval = some c) (hk : (k : Int) ≤ s.displayTime) :
    applyTicks k s = { s with displayTime := s.displayTime - k } := by
  induction k generalizing s with
  | zero => simp [applyTicks]
  | succ k ih =>
    have hne : s.displayTime ≠ 0 := by
      push_cast at hk
      omega
    have hstep : tick s = { s with displayTime := s.displayTime - 1 } :=
      tick_of_pos s c hc hne
    have : applyTicks (k + 1) s = applyTicks k (tick s) := by
      simp [applyTicks, Function.iterate_succ_apply]
    rw [this, hstep, ih { s with displayTime := s.displayTime - 1 } hc
      (by push_cast at hk ⊢; omega)]
    simp
    omega

theorem adjust_break_of_guard (s : AppState) (a : Int)
    (h : s.breakLength ≤ 1 ∨ s.breakLength ≥ 60) :
    handleIncrementDecrement s "break" a = s := by
  unfold handleIncrementDecrement
  simp [h]

theorem adjust_break_of_inbounds (s : AppState) (a : Int)
    (h : ¬(s.breakLength ≤ 1 ∨ s.breakLength ≥ 60)) :
    handleIncrementDecrement s "break" a =
      { s with breakLength := s.breakLength + a } := by
  unfold handleIncrementDecrement
  simp [h]

theorem adjust_session_of_guard (s : AppState) (a : Int)
    (h : s.sessionLength ≤ 1 ∨ s.sessionLength ≥ 60) :
    handleIncrementDecrement s "session" a = s := by
  unfold handleIncrementDecrement
  simp [h]

theorem adjust_session_of_inbounds (s : AppState) (a : Int)
    (h : ¬(s.sessionLength ≤ 1 ∨ s.sessionLength ≥ 60)) :
    handleIncrementDecrement s "session" a =
      { s with
        sessionLength := s.sessionLength + a
        displayTime := (s.sessionLength + a) * 60 } := by
  unfold handleIncrementDecrement
  simp [h]

theorem adjust_activeInterval (s : AppState) (t : String) (a : Int) :
    (handleIncrementDecrement s t a).activeInterval = s.activeInterval := by
  unfold handleIncrementDecrement
  split <;> try split
  all_goals first
    | rfl
    | (split <;> rfl)

theorem startTimer_of_none (s : AppState) (h : s.activeInterval = none) :
    startTimer s =
      { s with
        activeInterval :=
          some
            { breakOnVar := s.breakOn
              breakLength := s.breakLength
              sessionLength := s.sessionLength } } := by
  unfold startTimer
  rw [h]

theorem startTimer_of_some (s : AppState) (c : TickClosure)
    (h : s.activeInterval = some c) :
    startTimer s = { s with activeInterval := none } := by
  unfold startTimer
  rw [h]

/-! ### Claims about the configuration store -/

/-- Claim C4: every `adjust(target, delta)` call evaluates its guard on the
pre-adjustment value: if the targeted field is `<= 1` or `>= 60` the call is a
no-op leaving the whole state unchanged, otherwise the field becomes
`value + delta`; in particular `+1` is a no-op at values `>= 60` and `-1` is a
no-op at values `<= 1`. -/
theorem claim_C4_guard_pre_adjustment (s : AppState) (a : Int) :
    ((s.breakLength ≤ 1 ∨ s.breakLength ≥ 60) →
      handleIncrementDecrement s "break" a = s) ∧
    (¬(s.breakLength ≤ 1 ∨ s.breakLength ≥ 60) →
      (handleIncrementDecrement s "break" a).breakLength =
        s.breakLength + a) ∧
    ((s.sessionLength ≤ 1 ∨ s.sessionLength ≥ 60) →
      handleIncrementDecrement s "session" a = s) ∧
    (¬(s.sessionLength ≤ 1 ∨ s.sessionLength ≥ 60) →
      (handleIncrementDecrement s "session" a).sessionLength =
        s.sessionLength + a) := by
  refine ⟨fun h => adjust_break_of_guard s a h,
    fun h => ?_,
    fun h => adjust_session_of_guard s a h,
    fun h => ?_⟩
  · rw [adjust_break_of_inbounds s a h]
  · rw [adjust_session_of_inbounds s a h]

/-- Witness for C4: at the defaults (break 5, session 25) an increment lands;
at break length 60 and session length 1 the calls are no-ops. -/
theorem claim_C4_witness :
    (handleIncrementDecrement initialState "break" 1).breakLength =
        initialState.breakLength + 1 ∧
    (handleIncrementDecrement initialState "session" 1).sessionLength =
        initialState.sessionLength + 1 ∧
    handleIncrementDecrement
        { initialState with breakLength := 60 } "break" 1 =
      { initialState with breakLength := 60 } ∧
    handleIncrementDecrement
        { initialState with sessionLength := 1 } "session" (-1) =
      { initialState with sessionLength := 1 } := by
  refine ⟨(claim_C4_guard_pre_adjustment initialState 1).2.1 (by decide),
    (claim_C4_guard_pre_adjustment initialState 1).2.2.2 (by decide),
    (claim_C4_guard_pre_adjustment
      { initialState with breakLength := 60 } 1).1 (by decide),
    (claim_C4_guard_pre_adjustment
      { initialState with sessionLength := 1 } (-1)).2.2.1 (by decide)⟩

/-- Claim C5: an in-bounds session adjustment sets `remainingSeconds` to
`(sessionMinutes + delta) * 60` unconditionally (the state, so in particular
whether the timer is running or on break, is arbitrary), while a break
adjustment never changes `remainingSeconds`. -/
theorem claim_C5_session_overwrites_display (s : AppState) (a : Int) :
    (¬(s.sessionLength ≤ 1 ∨ s.sessionLength ≥ 60) →
      (handleIncrementDecrement s "session" a).displayTime =
        (s.sessionLength + a) * 60) ∧
    (handleIncrementDecrement s "break" a).displayTime = s.displayTime := by
  constructor
  · intro h
    rw [adjust_session_of_inbounds s a h]
  · by_cases h : s.breakLength ≤ 1 ∨ s.breakLength ≥ 60
    · rw [adjust_break_of_guard s a h]
    · rw [adjust_break_of_inbounds s a h]

/-- Witness for C5: in a state that is running and on break, a session
increment overwrites the live countdown with 26*60 and a break increment
leaves it alone. -/
theorem claim_C5_witness :
    ¬(({ startTimer initialState with breakOn := true } : AppState).sessionLength ≤ 1 ∨
        ({ startTimer initialState with breakOn := true } : AppState).sessionLength ≥ 60) ∧
    ({ startTimer initialState with breakOn := true } : AppState).activeInterval.isSome = true ∧
    (handleIncrementDecrement
        { startTimer initialState with breakOn := true } "session" 1).displayTime =
      (({ startTimer initialState with breakOn := true } : AppState).sessionLength + 1) * 60 ∧
    (handleIncrementDecrement
        { startTimer initialState with breakOn := true } "break" 1).displayTime =
      ({ startTimer initialState with breakOn := true } : AppState).displayTime := by
  refine ⟨by decide, by decide, ?_, ?_⟩
  · exact (claim_C5_session_overwrites_display
      { startTimer initialState with breakOn := true } 1).1 (by decide)
  · exact (claim_C5_session_overwrites_display
      { startTimer initialState with breakOn := true } 1).2

/-- Counterexample to claim C3 as stated: at v = 59 the increment reaches 60,
where the `>= 60` guard rejects the decrement, so the break field ends at 60,
not back at 59. -/
theorem claim_C3_counterexample :
    ({ initialState with breakLength := 59 } : AppState).breakLength = 59 ∧
    (handleIncrementDecrement
        (handleIncrementDecrement
          { initialState with breakLength := 59 } "break" 1)
        "break" (-1)).breakLength = 60 ∧
    ¬(handleIncrementDecrement
        (handleIncrementDecrement
          { initialState with breakLength := 59 } "break" 1)
        "break" (-1)).breakLength = 59 := by
  refine ⟨rfl, by decide, by decide⟩

/-- Claim C3 amended: for every v in [2,58] (not [2,59]: at v = 59 the
decrement after the increment is rejected by the `>= 60` guard), starting from
a state where the chosen field equals v, `adjust(type, +1)` then
`adjust(type, -1)` returns that field to v. -/
theorem claim_C3_adjust_roundtrip (s : AppState) (v : Int)
    (h2 : 2 ≤ v) (h58 : v ≤ 58) :
    (s.breakLength = v →
      (handleIncrementDecrement
          (handleIncrementDecrement s "break" 1) "break" (-1)).breakLength =
        v) ∧
    (s.sessionLength = v →
      (handleIncrementDecrement
          (handleIncrementDecrement s "session" 1) "session" (-1)).sessionLength =
        v) := by
  constructor
  · intro hv
    rw [adjust_break_of_inbounds s 1 (by omega)]
    rw [adjust_break_of_inbounds _ (-1) (by simp; omega)]
    simp
    omega
  · intro hv
    rw [adjust_session_of_inbounds s 1 (by omega)]
    rw [adjust_session_of_inbounds _ (-1) (by simp; omega)]
    simp
    omega

/-- Witness for the amended C3 at v = 10, for both fields. -/
theorem claim_C3_witness :
    (2 : Int) ≤ 10 ∧ (10 : Int) ≤ 58 ∧
    (handleIncrementDecrement
        (handleIncrementDecrement
          { initialState with breakLength := 10, sessionLength := 10 }
          "break" 1)
        "break" (-1)).breakLength = 10 ∧
    (handleIncrementDecrement
        (handleIncrementDecrement
          { initialState with breakLength := 10, sessionLength := 10 }
          "session" 1)
        "session" (-1)).sessionLength = 10 := by
  refine ⟨by decide, by decide, ?_, ?_⟩
  · exact (claim_C3_adjust_roundtrip
      { initialState with breakLength := 10, sessionLength := 10 } 10
      (by decide) (by decide)).1 rfl
  · exact (claim_C3_adjust_roundtrip
      { initialState with breakLength := 10, sessionLength := 10 } 10
      (by decide) (by decide)).2 rfl

/-! ### Claims about reset and start/stop -/

/-- Claim C6: from any prior state, `reset()` yields breakMinutes 5,
sessionMinutes 25, remainingSeconds 1500, not running (tick task cancelled),
not on break, with the alert audio paused and rewound to position 0. -/
theorem claim_C6_reset_defaults (s : AppState) :
    (reset s).breakLength = 5 ∧
    (reset s).sessionLength = 25 ∧
    (reset s).displayTime = 1500 ∧
    (reset s).activeInterval = none ∧
    (reset s).breakOn = false ∧
    (reset s).audioPaused = true ∧
    (reset s).audioTime = 0 := by
  refine ⟨rfl, rfl, by norm_num [reset], rfl, rfl, rfl, rfl⟩

/-- Claim C7: from a stopped state, two `start()` calls toggle the running
flag false, true, false; the second call cancels the interval, and afterwards
no number of tick firings changes the state at all (in particular none
decrements `remainingSeconds`). -/
theorem claim_C7_start_twice_cancels (s : AppState)
    (h : s.activeInterval = none) :
    s.activeInterval.isSome = false ∧
    (startTimer s).activeInterval.isSome = true ∧
    (startTimer (startTimer s)).activeInterval.isSome = false ∧
    ∀ n : Nat,
      applyTicks n (startTimer (startTimer s)) = startTimer (startTimer s) := by
  have h1 := startTimer_of_none s h
  have h2 : startTimer (startTimer s) = { s with activeInterval := none } := by
    rw [h1]
    exact startTimer_of_some _ _ rfl
  refine ⟨by rw [h]; rfl, by rw [h1]; rfl, by rw [h2]; rfl, ?_⟩
  intro n
  induction n with
  | zero => rfl
  | succ n ih =>
    rw [applyTicks] at ih ⊢
    rw [Function.iterate_succ_apply', ih]
    exact tick_of_none _ (by rw [h2])

/-- Witness for C7 at the initial state, with five post-cancellation ticks. -/
theorem claim_C7_witness :
    initialState.activeInterval.isSome = false ∧
    (startTimer initialState).activeInterval.isSome = true ∧
    (startTimer (startTimer initialState)).activeInterval.isSome = false ∧
    applyTicks 5 (startTimer (startTimer initialState)) =
      startTimer (startTimer initialState) := by
  refine ⟨(claim_C7_start_twice_cancels initialState rfl).1,
    (claim_C7_start_twice_cancels initialState rfl).2.1,
    (claim_C7_start_twice_cancels initialState rfl).2.2.1,
    (claim_C7_start_twice_cancels initialState rfl).2.2.2 5⟩

/-! ### Claims about the tick -/

/-- Claim C1: while the engine is running, a tick with remaining seconds
greater than 0 decrements them by exactly 1 and changes no other state; a tick
with remaining seconds equal to 0 fires the notifier, flips the phase flag,
and refills the remaining seconds (so the displayed 0 lasts one full tick
interval before the rollover). -/
theorem claim_C1_tick_cases (s : AppState) (c : TickClosure)
    (hrun : s.activeInterval = some c) (hsync : c.breakOnVar = s.breakOn) :
    (0 < s.displayTime →
      (tick s).displayTime = s.displayTime - 1 ∧
      (tick s).breakLength = s.breakLength ∧
      (tick s).sessionLength = s.sessionLength ∧
      (tick s).breakOn = s.breakOn ∧
      (tick s).activeInterval = s.activeInterval ∧
      (tick s).audioPaused = s.audioPaused ∧
      (tick s).audioTime = s.audioTime ∧
      (tick s).notifierCalls = s.notifierCalls) ∧
    (s.displayTime = 0 →
      (tick s).notifierCalls = s.notifierCalls + 1 ∧
      (tick s).audioPaused = false ∧
      (tick s).audioTime = 0 ∧
      (tick s).breakOn = !s.breakOn ∧
      (tick s).displayTime =
        (if s.breakOn then c.sessionLength else c.breakLength) * 60) := by
  constructor
  · intro hpos
    rw [tick_of_pos s c hrun (by omega)]
    exact ⟨rfl, rfl, rfl, rfl, rfl, rfl, rfl, rfl⟩
  · intro hzero
    rw [tick_of_zero s c hrun hzero, hsync]
    exact ⟨rfl, rfl, rfl, rfl, rfl⟩

/-- Witness for C1: just after starting from the defaults a tick decrements
1500 to 1499; from the same running state with the display forced to 0, a
tick fires the notifier once. -/
theorem claim_C1_witness :
    (0 < (startTimer initialState).displayTime ∧
      (tick (startTimer initialState)).displayTime =
        (startTimer initialState).displayTime - 1) ∧
    (({ startTimer initialState with displayTime := 0 } : AppState).displayTime = 0 ∧
      (tick { startTimer initialState with displayTime := 0 }).notifierCalls =
        ({ startTimer initialState with displayTime := 0 } : AppState).notifierCalls + 1) := by
  constructor
  · exact ⟨by decide,
      ((claim_C1_tick_cases (startTimer initialState)
        ⟨false, 5, 25⟩ rfl rfl).1 (by decide)).1⟩
  · exact ⟨rfl,
      ((claim_C1_tick_cases { startTimer initialState with displayTime := 0 }
        ⟨false, 5, 25⟩ rfl rfl).2 rfl).1⟩

/-- Counterexample to claim C2 as stated: starting from the defaults, after
exactly 1500 ticks the notifier has not fired, the phase flag is still false
and the remaining seconds are 0 (the rollover only happens on tick 1501). -/
theorem claim_C2_counterexample :
    (applyTicks 1500 (startTimer initialState)).notifierCalls = 0 ∧
    (applyTicks 1500 (startTimer initialState)).breakOn = false ∧
    (applyTicks 1500 (startTimer initialState)).displayTime = 0 ∧
    ¬((applyTicks 1500 (startTimer initialState)).notifierCalls = 1 ∧
      (applyTicks 1500 (startTimer initialState)).breakOn = true ∧
      (applyTicks 1500 (startTimer initialState)).displayTime = 300) := by
  have key := applyTicks_of_pos 1500 (startTimer initialState)
    ⟨false, 5, 25⟩ rfl (by decide)
  rw [key]
  refine ⟨rfl, rfl, by decide, by decide⟩

/-- Claim C2 amended: starting the engine from the default state
(sessionMinutes 25, breakMinutes 5), the 1500 decrementing ticks leave the
display at 0, and on tick 1501 the engine has fired exactly one notifier
call, onBreak is true, and remainingSeconds equals breakMinutes*60 = 300. -/
theorem claim_C2_session_rollover :
    (applyTicks 1501 (startTimer initialState)).notifierCalls = 1 ∧
    (applyTicks 1501 (startTimer initialState)).breakOn = true ∧
    (applyTicks 1501 (startTimer initialState)).displayTime = 300 ∧
    (applyTicks 1501 (startTimer initialState)).displayTime =
      initialState.breakLength * 60 := by
  have hsplit : applyTicks 1501 (startTimer initialState) =
      tick (applyTicks 1500 (startTimer initialState)) := by
    show tick^[1501] (startTimer initialState) =
      tick (tick^[1500] (startTimer initialState))
    exact Function.iterate_succ_apply' tick 1500 (startTimer initialState)
  have key := applyTicks_of_pos 1500 (startTimer initialState)
    ⟨false, 5, 25⟩ rfl (by decide)
  rw [hsplit, key]
  refine ⟨by decide, by decide, by decide, by decide⟩

/-! ### The stale closure at rollover -/

theorem tick_closure_lengths (s : AppState) (c : TickClosure)
    (h : s.activeInterval = some c) :
    ∃ c', (tick s).activeInterval = some c' ∧
      c'.breakLength = c.breakLength ∧ c'.sessionLength = c.sessionLength := by
  by_cases hz : s.displayTime = 0
  · rw [tick_of_zero s c h hz]
    exact ⟨{ c with breakOnVar := !c.breakOnVar }, rfl, rfl, rfl⟩
  · rw [tick_of_pos s c h hz]
    exact ⟨c, h, rfl, rfl⟩

theorem applyOps_closure_lengths (l : List Op) :
    ∀ (s : AppState) (c : TickClosure), s.activeInterval = some c →
      (∀ o ∈ l, o ≠ Op.startStop ∧ o ≠ Op.resetOp) →
      ∃ c', (applyOps s l).activeInterval = some c' ∧
        c'.breakLength = c.breakLength ∧
        c'.sessionLength = c.sessionLength := by
  induction l with
  | nil =>
    intro s c h _
    exact ⟨c, h, rfl, rfl⟩
  | cons o l ih =>
    intro s c h hl
    have ho := hl o (List.mem_cons_self o l)
    have hl' : ∀ o ∈ l, o ≠ Op.startStop ∧ o ≠ Op.resetOp :=
      fun o' ho' => hl o' (List.mem_cons_of_mem _ ho')
    have hstep : applyOps s (o :: l) = applyOps (applyOp s o) l := rfl
    rw [hstep]
    match o with
    | .adjust t a =>
      have h' : (applyOp s (.adjust t a)).activeInterval = some c := by
        show (handleIncrementDecrement s t a).activeInterval = some c
        rw [adjust_activeInterval, h]
      exact ih (applyOp s (.adjust t a)) c h' hl'
    | .tickOp =>
      obtain ⟨c1, hc1, hb1, hs1⟩ := tick_closure_lengths s c h
      obtain ⟨c', hc', hb, hs'⟩ := ih (applyOp s .tickOp) c1 hc1 hl'
      exact ⟨c', hc', hb.trans hb1, hs'.trans hs1⟩
    | .startStop => exact absurd rfl ho.1
    | .resetOp => exact absurd rfl ho.2

/-- Claim C8: when the timer is started from a stopped state, the lengths used
at rollover are the break/session minute values captured at interval-creation
time: after any further sequence of adjustments (and ticks), the live closure
still carries the captured lengths, and a rollover tick writes
(captured minutes) * 60 into the display, not the live configuration. -/
theorem claim_C8_rollover_uses_captured (s : AppState)
    (hs : s.activeInterval = none) (l : List Op)
    (hl : ∀ o ∈ l, o ≠ Op.startStop ∧ o ≠ Op.resetOp) :
    ∃ c, (applyOps (startTimer s) l).activeInterval = some c ∧
      c.breakLength = s.breakLength ∧
      c.sessionLength = s.sessionLength ∧
      ((applyOps (startTimer s) l).displayTime = 0 →
        (tick (applyOps (startTimer s) l)).displayTime =
          (if c.breakOnVar then s.sessionLength else s.breakLength) * 60) := by
  have h0 : (startTimer s).activeInterval =
      some ⟨s.breakOn, s.breakLength, s.sessionLength⟩ := by
    rw [startTimer_of_none s hs]
  obtain ⟨c, hc, hb, hss⟩ := applyOps_closure_lengths l (startTimer s) _ h0 hl
  have hb' : c.breakLength = s.breakLength := hb
  have hss' : c.sessionLength = s.sessionLength := hss
  refine ⟨c, hc, hb', hss', fun hz => ?_⟩
  rw [tick_of_zero _ c hc hz]
  show (if c.breakOnVar then c.sessionLength else c.breakLength) * 60 =
    (if c.breakOnVar then s.sessionLength else s.breakLength) * 60
  rw [hb', hss']

/-- Witness for C8: start with the display at 0, then bump the break length to
6; the rollover still refills with the captured break length 5, i.e. 300
seconds, not 360. -/
theorem claim_C8_witness :
    ({ initialState with displayTime := 0 } : AppState).activeInterval = none ∧
    (applyOps (startTimer { initialState with displayTime := 0 })
        [Op.adjust "break" 1]).breakLength = 6 ∧
    (applyOps (startTimer { initialState with displayTime := 0 })
        [Op.adjust "break" 1]).displayTime = 0 ∧
    (tick (applyOps (startTimer { initialState with displayTime := 0 })
        [Op.adjust "break" 1])).displayTime = 300 := by
  obtain ⟨c, hc, hb, hss, himp⟩ :=
    claim_C8_rollover_uses_captured { initialState with displayTime := 0 } rfl
      [Op.adjust "break" 1]
      (by
        intro o ho
        rcases List.mem_singleton.mp ho with rfl
        exact ⟨by simp, by simp⟩)
  have hcval : (applyOps (startTimer { initialState with displayTime := 0 })
      [Op.adjust "break" 1]).activeInterval = some ⟨false, 5, 25⟩ := by decide
  rw [hc] at hcval
  obtain rfl : c = ⟨false, 5, 25⟩ := Option.some_inj.mp hcval
  have h3 := himp (by decide)
  refine ⟨rfl, by decide, by decide, ?_⟩
  simpa using h3

/-! ### The reachability invariant -/

theorem reachInv_initial : ReachInv initialState := by
  refine ⟨by norm_num [initialState], by norm_num [initialState],
    by norm_num [initialState], by norm_num [initialState],
    by norm_num [initialState], fun c hc => ?_⟩
  exact Option.noConfusion hc

theorem reachInv_adjust (s : AppState) (t : String) (a : Int)
    (ha : a = 1 ∨ a = -1) (h : ReachInv s) :
    ReachInv (handleIncrementDecrement s t a) := by
  obtain ⟨hd, hb1, hb2, hs1, hs2, hcl⟩ := h
  by_cases ht1 : t = "break"
  · subst ht1
    by_cases hg : s.breakLength ≤ 1 ∨ s.breakLength ≥ 60
    · rw [adjust_break_of_guard s a hg]
      exact ⟨hd, hb1, hb2, hs1, hs2, hcl⟩
    · rw [adjust_break_of_inbounds s a hg]
      refine ⟨hd, ?_, ?_, hs1, hs2, hcl⟩
      · show (1 : Int) ≤ s.breakLength + a
        rcases ha with rfl | rfl <;> omega
      · show s.breakLength + a ≤ 60
        rcases ha with rfl | rfl <;> omega
  · by_cases ht2 : t = "session"
    · subst ht2
      by_cases hg : s.sessionLength ≤ 1 ∨ s.sessionLength ≥ 60
      · rw [adjust_session_of_guard s a hg]
        exact ⟨hd, hb1, hb2, hs1, hs2, hcl⟩
      · rw [adjust_session_of_inbounds s a hg]
        refine ⟨?_, hb1, hb2, ?_, ?_, hcl⟩
        · show 0 ≤ (s.sessionLength + a) * 60
          rcases ha with rfl | rfl <;> omega
        · show (1 : Int) ≤ s.sessionLength + a
          rcases ha with rfl | rfl <;> omega
        · show s.sessionLength + a ≤ 60
          rcases ha with rfl | rfl <;> omega
    · have heq : handleIncrementDecrement s t a = s := by
        unfold handleIncrementDecrement
        simp [ht1, ht2]
      rw [heq]
      exact ⟨hd, hb1, hb2, hs1, hs2, hcl⟩

theorem reachInv_startTimer (s : AppState) (h : ReachInv s) :
    ReachInv (startTimer s) := by
  obtain ⟨hd, hb1, hb2, hs1, hs2, hcl⟩ := h
  cases hA : s.activeInterval with
  | none =>
    rw [startTimer_of_none s hA]
    refine ⟨hd, hb1, hb2, hs1, hs2, fun c hc => ?_⟩
    obtain rfl : (⟨s.breakOn, s.breakLength, s.sessionLength⟩ : TickClosure) = c :=
      Option.some_inj.mp hc
    exact ⟨hb1, hb2, hs1, hs2⟩
  | some c0 =>
    rw [startTimer_of_some s c0 hA]
    exact ⟨hd, hb1, hb2, hs1, hs2, fun c hc => Option.noConfusion hc⟩

theorem reachInv_tick (s : AppState) (h : ReachInv s) : ReachInv (tick s) := by
  obtain ⟨hd, hb1, hb2, hs1, hs2, hcl⟩ := h
  cases hA : s.activeInterval with
  | none =>
    rw [tick_of_none s hA]
    exact ⟨hd, hb1, hb2, hs1, hs2, hcl⟩
  | some c0 =>
    by_cases hz : s.displayTime = 0
    · rw [tick_of_zero s c0 hA hz]
      obtain ⟨k1, k2, k3, k4⟩ := hcl c0 hA
      refine ⟨?_, hb1, hb2, hs1, hs2, fun c hc => ?_⟩
      · show 0 ≤ (if c0.breakOnVar then c0.sessionLength else c0.breakLength) * 60
        split_ifs <;> omega
      · obtain rfl : ({ c0 with breakOnVar := !c0.breakOnVar } : TickClosure) = c :=
          Option.some_inj.mp hc
        exact ⟨k1, k2, k3, k4⟩
    · rw [tick_of_pos s c0 hA hz]
      refine ⟨?_, hb1, hb2, hs1, hs2, hcl⟩
      show 0 ≤ s.displayTime - 1
      omega

theorem reachInv_reset (s : AppState) : ReachInv (reset s) := by
  refine ⟨by norm_num [reset], by norm_num [reset], by norm_num [reset],
    by norm_num [reset], by norm_num [reset], fun c hc => ?_⟩
  exact Option.noConfusion hc

theorem reachable_reachInv (s : AppState) (h : Reachable s) : ReachInv s := by
  induction h with
  | init => exact reachInv_initial
  | step o ho hs ih =>
    match o, ho with
    | .adjust t a, ho => exact reachInv_adjust _ t a ho ih
    | .startStop, _ => exact reachInv_startTimer _ ih
    | .tickOp, _ => exact reachInv_tick _ ih
    | .resetOp, _ => exact reachInv_reset _

/-- Claim C9: in every state reachable from the initial state by adjust,
start/stop, tick and reset operations, the remaining seconds are
non-negative. -/
theorem claim_C9_displayTime_nonneg (s : AppState) (h : Reachable s) :
    0 ≤ s.displayTime :=
  (reachable_reachInv s h).1

/-- Witness for C9 at the initial state. -/
theorem claim_C9_witness :
    Reachable initialState ∧ 0 ≤ initialState.displayTime :=
  ⟨Reachable.init, claim_C9_displayTime_nonneg initialState Reachable.init⟩

/-! ### Formatting -/

theorem toDigitsCore_length_le (b : Nat) :
    ∀ (f n : Nat) (l : List Char),
      l.length ≤ (Nat.toDigitsCore b f n l).length := by
  intro f
  induction f with
  | zero =>
    intro n l
    simp [Nat.toDigitsCore]
  | succ f ih =>
    intro n l
    simp only [Nat.toDigitsCore]
    split
    · simp
    · exact le_trans (by simp) (ih (n / b) (Nat.digitChar (n % b) :: l))

theorem toDigitsCore_length_lt (b : Nat) (f n : Nat) (l : List Char)
    (hf : 0 < f) : l.length + 1 ≤ (Nat.toDigitsCore b f n l).length := by
  cases f with
  | zero => exact absurd hf (by omega)
  | succ f =>
    simp only [Nat.toDigitsCore]
    split
    · simp
    · exact le_trans (by simp) (toDigitsCore_length_le b f (n / b)
        (Nat.digitChar (n % b) :: l))

theorem repr_length_pos (n : Nat) : 1 ≤ (Nat.repr n).length := by
  simp only [Nat.repr, Nat.toDigits, String.length, List.asString]
  exact toDigitsCore_length_lt 10 (n + 1) n [] (by omega)

theorem repr_length_ge_two (n : Nat) (h : 10 ≤ n) :
    2 ≤ (Nat.repr n).length := by
  simp only [Nat.repr, Nat.toDigits, String.length, List.asString]
  simp only [Nat.toDigitsCore]
  have hdiv : ¬n / 10 = 0 := by omega
  rw [if_neg hdiv]
  exact toDigitsCore_length_lt 10 n (n / 10) [Nat.digitChar (n % 10)] (by omega)

theorem repr_length_one (n : Nat) (h : n < 10) : (Nat.repr n).length = 1 :=
  le_antisymm (Nat.repr_length n 1 (by omega) (by simpa)) (repr_length_pos n)

theorem padStart_repr_eq_specZeroPad (k : Nat) :
    padStart (Nat.repr k) 2 '0' = specZeroPad k := by
  by_cases hk : k < 10
  · have h1 := repr_length_one k hk
    unfold padStart specZeroPad
    rw [if_neg (by omega), if_pos hk, h1]
    show String.mk (List.replicate 1 '0') ++ Nat.repr k = "0" ++ Nat.repr k
    congr 1
  · have h2 : 2 ≤ (Nat.repr k).length := repr_length_ge_two k (by omega)
    unfold padStart specZeroPad
    rw [if_pos h2, if_neg hk]

/-- Claim C10: for every non-negative number of seconds, `timeFormat` returns
minutes = floor(seconds/60) and secs = seconds mod 60, each zero-padded to
width 2, joined by ":"; in particular `timeFormat 0 = "00:00"`,
`timeFormat 65 = "01:05"` and `timeFormat 3599 = "59:59"`. -/
theorem claim_C10_timeFormat :
    (∀ seconds : Nat, timeFormat seconds = specFormat seconds) ∧
    timeFormat 0 = "00:00" ∧
    timeFormat 65 = "01:05" ∧
    timeFormat 3599 = "59:59" := by
  refine ⟨fun seconds => ?_, by decide, by decide, by decide⟩
  unfold timeFormat specFormat
  rw [padStart_repr_eq_specZeroPad, padStart_repr_eq_specZeroPad]
